import Mathlib

/-!
Shallow embedding of the xomcloud-backend download-tracks core.

Strings are modelled as `List Char`; filesystem and network effects are
modelled by explicit oracles (directory listings, per-attempt HTTP responses,
per-item fetch outcomes) and an explicit `SysState` record tracking which
artifacts (the per-batch workspace directory, the temporary zip file, the S3
upload) exist.  Python whitespace handling is modelled over the six ASCII
whitespace characters matched by `\s` and `str.strip`.
-/

/-! ## `Track._sanitize` and `Track.safe_filename` (lambdas/download_tracks/downloader.py) -/

/-- Characters removed by `re.sub(r'[<>:"/\\|?*]', '', s)` in `Track._sanitize`. -/
def badChars : List Char := ['<', '>', ':', '"', '/', '\\', '|', '?', '*']

/-- Membership in the stripped character class. -/
def isBadChar (c : Char) : Bool := badChars.contains c

/-- ASCII whitespace, the characters matched by Python's `\s` (ASCII fragment). -/
def isPySpace (c : Char) : Bool :=
  c == ' ' || c == '\t' || c == '\n' || c == '\r' || c == '\x0b' || c == '\x0c'

/-- Replace every maximal run of whitespace by a single space, as
`re.sub(r'\s+', ' ', s)` does.  The boolean records whether the previous
character belonged to a whitespace run. -/
def collapseWsAux : Bool → List Char → List Char
  | _, [] => []
  | prevWs, c :: rest =>
    if isPySpace c then
      if prevWs then collapseWsAux true rest
      else ' ' :: collapseWsAux true rest
    else c :: collapseWsAux false rest

/-- Collapse whitespace runs, starting outside a run. -/
def collapseWs (l : List Char) : List Char := collapseWsAux false l

/-- Remove leading and trailing whitespace, as `str.strip()` does. -/
def stripWs (l : List Char) : List Char :=
  (((l.dropWhile isPySpace).reverse).dropWhile isPySpace).reverse

/-- `Track._sanitize`: remove the unsafe characters, collapse whitespace runs
to single spaces, and strip surrounding whitespace.  (On the empty string the
Python function returns `""` early; the pipeline below agrees.) -/
def sanitize (s : List Char) : List Char :=
  stripWs (collapseWs (s.filter (fun c => !isBadChar c)))

/-- The `Track` dataclass of `downloader.py`. -/
structure Track where
  id : List Char
  url : List Char
  title : List Char
  artist : List Char
deriving DecidableEq, Repr

/-- `Track.safe_filename`: `"artist - title"` from the separately sanitized
components, falling back to the sanitized title alone and then to
`"track_<id>"`, truncated to 150 characters. -/
def Track.safe_filename (t : Track) : List Char :=
  let safe_artist := sanitize t.artist
  let safe_title := sanitize t.title
  let name :=
    if !safe_artist.isEmpty && !safe_title.isEmpty then
      safe_artist ++ (" - ").toList ++ safe_title
    else if !safe_title.isEmpty then safe_title
    else ("track_").toList ++ t.id
  name.take 150

/-- SafeName exactly as the claim words it ("the concatenation `artist - title`
with every character of the class removed, whitespace collapsed, trimmed",
falling back to the sanitized title when the composed name is empty, then to
`track_<id>`).  This spec-side definition exists only to be compared with the
source's `Track.safe_filename`. -/
def specSafeName (t : Track) : List Char :=
  let composed := sanitize (t.artist ++ (" - ").toList ++ t.title)
  let name :=
    if !composed.isEmpty then composed
    else if !(sanitize t.title).isEmpty then sanitize t.title
    else ("track_").toList ++ t.id
  name.take 150

/-- Property: the string contains none of the stripped characters. -/
def noBadChars (l : List Char) : Prop := ∀ c ∈ l, isBadChar c = false

/-- Property: the string contains no two consecutive whitespace characters
(in particular no run of more than one space). -/
def noWsPair (l : List Char) : Prop :=
  l.Chain' (fun a b => ¬(isPySpace a = true ∧ isPySpace b = true))

/-! ## Filename and extension helpers (`os.path.splitext`, lowercasing) -/

/-- Final path component, as `os.path.basename` computes it. -/
def basenameOf (p : List Char) : List Char :=
  (p.reverse.takeWhile (fun c => c != '/')).reverse

/-- Extension (with its dot) of a path, as `os.path.splitext(p)[1]`: the part
of the basename from its last dot on, where leading dots of the basename do
not count as extension separators. -/
def splitextExt (p : List Char) : List Char :=
  let b := basenameOf p
  let core := b.dropWhile (fun c => c == '.')
  if core.contains '.' then
    '.' :: ((core.reverse.takeWhile (fun c => c != '.')).reverse)
  else []

/-- ASCII lowercasing of a string, as `str.lower()` on the inputs we model. -/
def lowerStr (s : List Char) : List Char := s.map Char.toLower

/-- Python's substring test `needle in hay` (an empty needle is contained in
everything). -/
def containsSub (hay needle : List Char) : Bool :=
  match hay with
  | [] => needle.isEmpty
  | _ :: t => needle.isPrefixOf hay || containsSub t needle

/-! ## Result matching (`_find_downloaded_file`, `downloader.py`) -/

/-- The audio extensions accepted by `_find_downloaded_file`. -/
def audio_extensions : List (List Char) :=
  [(".mp3").toList, (".m4a").toList, (".wav").toList,
   (".opus").toList, (".flac").toList, (".ogg").toList]

/-- Does the filename carry one of the accepted audio extensions
(`os.path.splitext(fname)[1].lower() in audio_extensions`)? -/
def isAudioName (f : List Char) : Bool :=
  audio_extensions.contains (lowerStr (splitextExt f))

/-- The first-pass test of `_find_downloaded_file`: an audio file whose
lowercased name contains the first 20 characters of the lowercased SafeName,
or whose name contains the raw track id. -/
def fname_matches (track : Track) (f : List Char) : Bool :=
  let safe_name := lowerStr track.safe_filename
  isAudioName f &&
    (containsSub (lowerStr f) (lowerStr (safe_name.take 20)) || containsSub f track.id)

/-- `_find_downloaded_file`: first audio file matching the filename test, else
the first audio file at all (last resort), else nothing.  `files` is the
directory listing in `os.listdir` order; we return the matched filename (the
source returns it joined to the directory path). -/
def _find_downloaded_file (files : List (List Char)) (track : Track) : Option (List Char) :=
  match files.find? (fun f => fname_matches track f) with
  | some f => some f
  | none => files.find? (fun f => isAudioName f)

/-- Result record of one download (`DownloadResult` dataclass). -/
structure DownloadResult where
  track : Track
  success : Bool
  file_path : Option (List Char)
  error : Option (List Char)
deriving DecidableEq, Repr

/-- The post-download portion of `_download_track_sync` on an exception-free
run: locate the downloaded file and build the per-item result; when nothing
matches, the item fails with "File not found after download". -/
def download_track_find_result (files : List (List Char)) (track : Track) : DownloadResult :=
  match _find_downloaded_file files track with
  | some p => { track := track, success := true, file_path := some p, error := none }
  | none =>
    { track := track, success := false, file_path := none,
      error := some (("File not found after download").toList) }

/-! ## Metadata matching (`_find_file_by_metadata`, `downloader_scdl.py`) -/

/-- A directory entry as seen by the scdl variant: a filename plus the
embedded (title, artist) tags mutagen reads from it (`none` when mutagen
returns no tags or fails). -/
structure ScdlFile where
  name : List Char
  tags : Option (List Char × List Char)
deriving DecidableEq, Repr

/-- The audio extensions accepted by the scdl variant. -/
def scdl_audio_exts : List (List Char) :=
  [(".mp3").toList, (".m4a").toList, (".wav").toList,
   (".webm").toList, (".opus").toList]

/-- `_normalize`: lower-case and strip every character outside `[0-9a-z]`. -/
def _normalize (s : List Char) : List Char :=
  (lowerStr s).filter (fun c => ('0' ≤ c && c ≤ '9') || ('a' ≤ c && c ≤ 'z'))

/-- `_find_file_by_metadata`: first audio-extensioned file whose normalized
embedded title tag equals the item's normalized title, or whose normalized
artist tag equals the item's normalized artist (empty tags and empty wanted
values never match). -/
def _find_file_by_metadata (files : List ScdlFile) (track : Track) : Option (List Char) :=
  let want_title := _normalize track.title
  let want_artist := _normalize track.artist
  (files.find? (fun f =>
    scdl_audio_exts.contains (lowerStr (splitextExt f.name)) &&
      (match f.tags with
       | none => false
       | some (tt, ta) =>
         (!tt.isEmpty && !want_title.isEmpty && _normalize tt == want_title) ||
         (!ta.isEmpty && !want_artist.isEmpty && _normalize ta == want_artist)))).map
    (fun f => f.name)

/-- The three-stage matcher exactly as the claim words it: metadata match
first, then the filename test (name contains the first 20 characters of the
SafeName or the raw id), then the first audio file.  Spec-side definition,
used only to compare the claimed priority order with the source matchers. -/
def claimed_matcher (files : List ScdlFile) (track : Track) : Option (List Char) :=
  match _find_file_by_metadata files track with
  | some p => some p
  | none =>
    match (files.map (fun f => f.name)).find? (fun n =>
        isAudioName n &&
          (containsSub (lowerStr n) ((lowerStr track.safe_filename).take 20) ||
            containsSub n track.id)) with
    | some n => some n
    | none => (files.map (fun f => f.name)).find? (fun n => isAudioName n)

/-! ## The batch pipeline (`download_tracks`, `downloader.py`) -/

/-- Observable filesystem/storage state threaded through the orchestration:
whether the per-batch workspace directory exists, whether the temporary zip
file exists, and whether the archive was uploaded. -/
structure SysState where
  workspaceExists : Bool
  zipExists : Bool
  uploaded : Bool
deriving DecidableEq, Repr

/-- Initial state: nothing created yet. -/
def SysState.init : SysState := ⟨false, false, false⟩

/-- Index-aware map, the embedding of `for i, track in enumerate(tracks)`. -/
def enumMapFrom (f : Nat → α → β) : Nat → List α → List β
  | _, [] => []
  | i, a :: as => f i a :: enumMapFrom f (i + 1) as

/-- Index-aware map starting at 0. -/
def enumMap (f : Nat → α → β) (l : List α) : List β := enumMapFrom f 0 l

/-- One zip entry: archive name and the bytes written for it. -/
structure ZipEntry where
  arcname : List Char
  data : List Nat
deriving DecidableEq, Repr

/-- Errors raised by the download-tracks lambda, as the handler classifies
them (`ValidationError`, `DownloadError`, storage faults and other unexpected
exceptions). -/
inductive AppErr where
  | validationError (msg : List Char)
  | downloadError (msg : List Char)
  | storageError (msg : List Char)
  | internalError (msg : List Char)
deriving DecidableEq, Repr

/-- `successful = [r for r in results if r.success and r.file_path]`. -/
def collect_successful (results : List DownloadResult) : List DownloadResult :=
  results.filter (fun r => r.success && r.file_path.isSome)

/-- One zip entry for a successful result: arcname is the track's SafeName
plus the downloaded file's real extension, data is that file's bytes
(`contents` is the filesystem oracle). -/
def zip_entry_of (contents : List Char → List Nat) (r : DownloadResult) : ZipEntry :=
  let fp := r.file_path.getD []
  { arcname := r.track.safe_filename ++ splitextExt fp, data := contents fp }

/-- The zip-building loop of `download_tracks`: one entry per successful
result, in order, with no collision handling. -/
def build_zip (contents : List Char → List Nat) (successful : List DownloadResult) :
    List ZipEntry :=
  successful.map (zip_entry_of contents)

/-- `download_tracks` with its filesystem side effects made explicit.
`fetch i t` is the oracle giving the settled `DownloadResult` of item `i`
(each `_download_track_sync` call catches every exception and returns a
result, so the oracle is total).  The workspace directory is created by
`tempfile.mkdtemp` after the emptiness check; the zip file is created inside
it only when at least one item succeeded; raising leaves both in place. -/
def download_tracks_run (fetch : Nat → Track → DownloadResult)
    (contents : List Char → List Nat) (tracks : List Track) (s : SysState) :
    Except AppErr (List ZipEntry × List DownloadResult) × SysState :=
  if tracks.isEmpty then
    (.error (.downloadError (("No tracks provided").toList)), s)
  else
    let s1 : SysState := { s with workspaceExists := true }
    let results := enumMap fetch tracks
    let successful := collect_successful results
    if successful.isEmpty then
      (.error (.downloadError (("All downloads failed").toList)), s1)
    else
      (.ok (build_zip contents successful, results), { s1 with zipExists := true })

/-- The value `download_tracks` returns (or the error it raises). -/
def download_tracks (fetch : Nat → Track → DownloadResult)
    (contents : List Char → List Nat) (tracks : List Track) :
    Except AppErr (List ZipEntry × List DownloadResult) :=
  (download_tracks_run fetch contents tracks SysState.init).1

/-! ## The completion-order model of `asyncio.gather` -/

/-- Completion of task `i` stores its outcome in slot `i`; later completions
never touch other slots. -/
def fillSlots (outcome : Nat → α) : List Nat → (Nat → Option α) → Nat → Option α
  | [], s => s
  | i :: rest, s => fillSlots outcome rest (fun j => if j = i then some (outcome i) else s j)

/-- `asyncio.gather(*tasks)` run under completion order `order`: every task's
outcome is stored at its own index as it completes, and the result list is
read out index by index. -/
def gatherOutcomes (n : Nat) (outcome : Nat → α) (order : List Nat) : List (Option α) :=
  (List.range n).map (fillSlots outcome order (fun _ => none))

/-! ## Request validation (`validate_request`, handler.py) -/

/-- JSON values as the handler sees them after `parse_body`. -/
inductive Json where
  | null
  | bool (b : Bool)
  | num (n : Int)
  | str (s : List Char)
  | arr (elems : List Json)
  | obj (fields : List (List Char × Json))

/-- Python truthiness of a JSON value. -/
def Json.truthy : Json → Bool
  | .null => false
  | .bool b => b
  | .num n => n != 0
  | .str s => !s.isEmpty
  | .arr xs => !xs.isEmpty
  | .obj kvs => !kvs.isEmpty

/-- `dict.get` on an object (first binding of the key; objects parsed from
JSON have distinct keys), `None`-as-`none` elsewhere. -/
def Json.get : Json → List Char → Option Json
  | .obj kvs, k => (kvs.find? (fun p => p.1 == k)).map (fun p => p.2)
  | _, _ => none

/-- Python `repr` of a scalar JSON value; collections are rendered with
bounded recursion over their size (they never appear in well-formed track
fields, but `str()` is total in Python, so the model is total too). -/
def jsonReprFuel : Nat → Json → List Char
  | _, .null => ("None").toList
  | _, .bool true => ("True").toList
  | _, .bool false => ("False").toList
  | _, .num n => (Int.repr n).toList
  | _, .str s => '\'' :: s ++ ['\'']
  | 0, _ => []
  | fuel + 1, .arr xs =>
    ("[").toList ++
      (List.intercalate ((", ").toList) (xs.map (jsonReprFuel fuel))) ++ ("]").toList
  | fuel + 1, .obj kvs =>
    ("\x7b").toList ++
      (List.intercalate ((", ").toList)
        (kvs.map (fun p => '\'' :: p.1 ++ ['\''] ++ (": ").toList ++ jsonReprFuel fuel p.2))) ++
      ("\x7d").toList

mutual

/-- Nesting depth of a JSON value, the fuel needed to render it fully. -/
def Json.depth : Json → Nat
  | .null => 1
  | .bool _ => 1
  | .num _ => 1
  | .str _ => 1
  | .arr xs => 1 + Json.depthList xs
  | .obj kvs => 1 + Json.depthFields kvs

/-- Maximal depth of a list of JSON values. -/
def Json.depthList : List Json → Nat
  | [] => 0
  | x :: xs => max (Json.depth x) (Json.depthList xs)

/-- Maximal depth of the values of an object's fields. -/
def Json.depthFields : List (List Char × Json) → Nat
  | [] => 0
  | p :: ps => max (Json.depth p.2) (Json.depthFields ps)

end

/-- Python `str()` of a JSON value (strings render as themselves; other
values render as their repr; `Json.depth j` bounds the nesting depth, so the
fueled repr renders the whole value). -/
def jsonStr (j : Json) : List Char :=
  match j with
  | .str s => s
  | j => jsonReprFuel j.depth j

/-- Python equality of a JSON value with a string literal: `==` between
values of different Python types is `False`, so only a string can equal a
string. -/
def Json.eqStrLit (j : Json) (s : List Char) : Bool :=
  match j with
  | .str t => t == s
  | _ => false

/-- Python's `a or b` on JSON values. -/
def pyOr (a b : Json) : Json := if a.truthy then a else b

/-- Outcome of `validate_request`: the parsed tracks and folder username, a
`ValidationError`, or a dynamic-typing fault (`TypeError`/`AttributeError`,
caught by the handler's generic `except Exception`). -/
inductive VOut where
  | ok (tracks : List Track) (username : List Char)
  | vErr (msg : List Char)
  | typeErr
deriving DecidableEq, Repr

/-- The raw artist value of one entry:
`t.get("artist") or (t.get("user", {}).get("username") if isinstance(t.get("user"), dict) else None) or "Unknown Artist"`. -/
def entry_artist_raw (t : Json) : Json :=
  let userF := (t.get (("user").toList)).getD .null
  let fromUser :=
    match userF with
    | .obj _ => (userF.get (("username").toList)).getD .null
    | _ => .null
  pyOr ((t.get (("artist").toList)).getD .null)
    (pyOr fromUser (.str (("Unknown Artist").toList)))

/-- The raw id value of one entry (`t.get("id")`). -/
def entry_id_raw (t : Json) : Json := (t.get (("id").toList)).getD .null

/-- The url value of one entry before the synthesis fallback:
`t.get("url") or t.get("permalink_url")`. -/
def entry_url_raw (t : Json) : Json :=
  pyOr ((t.get (("url").toList)).getD .null)
    ((t.get (("permalink_url").toList)).getD .null)

/-- The title value of one entry (`t.get("title", f"Track {i + 1}")`,
a presence default, not a truthiness default). -/
def entry_title_raw (i : Nat) (t : Json) : Json :=
  (t.get (("title").toList)).getD (.str ((("Track ").toList) ++ (Nat.repr (i + 1)).toList))

/-- The `Track` built for an accepted entry at index `i`. -/
def entry_track (i : Nat) (t : Json) : Track :=
  let url0 := entry_url_raw t
  let url :=
    if !url0.truthy then
      Json.str ((("https://api.soundcloud.com/tracks/").toList) ++ jsonStr (entry_id_raw t))
    else url0
  { id := jsonStr (entry_id_raw t), url := jsonStr url,
    title := jsonStr (entry_title_raw i t), artist := jsonStr (entry_artist_raw t) }

/-- Does the loop reject this entry?  It rejects non-objects and objects whose
`id` value is missing or falsy. -/
def entry_rejected (t : Json) : Bool :=
  match t with
  | .obj _ => !(entry_id_raw t).truthy
  | _ => true

/-- The per-entry loop of `validate_request`: first rejection wins; the first
artist different from the literal `"Unknown Artist"` is captured as the
username; the final username falls back to `"xomcloud"`. -/
def validate_entries (i : Nat) (uname : Option Json) : List Json → VOut
  | [] =>
    .ok [] (match uname with | some u => jsonStr u | none => ("xomcloud").toList)
  | t :: rest =>
    match t with
    | .obj _ =>
      let artist := entry_artist_raw t
      let uname' :=
        if uname.isNone && !(artist.eqStrLit (("Unknown Artist").toList)) then some artist
        else uname
      if !(entry_id_raw t).truthy then
        .vErr ((("Track ").toList) ++ (Nat.repr i).toList ++ (" missing ").toList ++
          ['\''] ++ ("id").toList ++ ['\''] ++ (" field").toList)
      else
        match validate_entries (i + 1) uname' rest with
        | .ok ts u => .ok (entry_track i t :: ts) u
        | e => e
    | _ =>
      .vErr ((("Track ").toList) ++ (Nat.repr i).toList ++ (" must be an object").toList)

/-- `validate_request`.  A falsy body is rejected; the `tracks` value defaults
to `[]`; a falsy tracks value is rejected; more than `MAX_TRACKS = 5` entries
are rejected; then the entry loop runs.  Iterating a string or dict yields
one-character strings or keys (each rejected as a non-object); calling `len`
on other truthy values raises `TypeError`, modelled as `typeErr`. -/
def validate_request (body : Json) : VOut :=
  if !body.truthy then .vErr (("Request body is required").toList)
  else
    match body with
    | .obj _ =>
      let td := (body.get (("tracks").toList)).getD (.arr [])
      if !td.truthy then .vErr (("At least one track is required").toList)
      else
        match td with
        | .arr xs =>
          if xs.length > 5 then .vErr (("Maximum 5 tracks per request").toList)
          else validate_entries 0 none xs
        | .str s =>
          if s.length > 5 then .vErr (("Maximum 5 tracks per request").toList)
          else validate_entries 0 none (s.map (fun c => Json.str [c]))
        | .obj kvs =>
          if kvs.length > 5 then .vErr (("Maximum 5 tracks per request").toList)
          else validate_entries 0 none (kvs.map (fun p => Json.str p.1))
        | _ => .typeErr
    | _ => .typeErr

/-! ## `process_download` and `handler` (handler.py) -/

/-- The manifest fields of the handler's success payload that the claims
mention. -/
structure Manifest where
  total : Nat
  successful : Nat
  failed_count : Nat
deriving DecidableEq, Repr

/-- `process_download`: download the batch, upload the zip (the `uploadOk`
oracle says whether `upload_file` succeeds), then — only on that path —
remove the zip file and the workspace directory and build the manifest.
An exception from `download_tracks` or from the upload propagates with the
workspace (and, after the upload step, the zip) left in place. -/
def process_download (fetch : Nat → Track → DownloadResult)
    (contents : List Char → List Nat) (uploadOk : Bool)
    (tracks : List Track) (s : SysState) : Except AppErr Manifest × SysState :=
  match download_tracks_run fetch contents tracks s with
  | (.error e, s1) => (.error e, s1)
  | (.ok (_zip, results), s1) =>
    if uploadOk then
      let s2 : SysState := { s1 with uploaded := true }
      let s3 : SysState := { s2 with zipExists := false, workspaceExists := false }
      (.ok { total := tracks.length,
             successful := (results.filter (fun r => r.success)).length,
             failed_count := (results.filter (fun r => !r.success)).length }, s3)
    else
      (.error (.storageError (("upload failed").toList)), s1)

/-- A lambda response: the success payload or the error the handler caught. -/
inductive HResp where
  | ok (m : Manifest)
  | err (e : AppErr)
deriving DecidableEq, Repr

/-- Does the response indicate success? -/
def HResp.isOk : HResp → Bool
  | .ok _ => true
  | .err _ => false

/-- Did the request fail before the workspace was created (validation failure
or a fault while parsing/validating)?  On these paths no workspace ever
exists. -/
def HResp.failedBeforeDispatch : HResp → Bool
  | .err (.validationError _) => true
  | .err (.internalError _) => true
  | _ => false

/-- The `handler` function: validate, run `process_download`, and convert any
raised error into an error response.  No cleanup happens in the handler's
`except` branches. -/
def handler_run (fetch : Nat → Track → DownloadResult)
    (contents : List Char → List Nat) (uploadOk : Bool)
    (body : Json) (s : SysState) : HResp × SysState :=
  match validate_request body with
  | .ok tracks _username =>
    (match process_download fetch contents uploadOk tracks s with
     | (.ok m, s1) => (.ok m, s1)
     | (.error e, s1) => (.err e, s1))
  | .vErr msg => (.err (.validationError msg), s)
  | .typeErr => (.err (.internalError (("TypeError").toList)), s)

/-! ## The fetch client and rate gate (lambdas/common/aiohttp_helper.py) -/

/-- One upstream HTTP response: status, optional `Retry-After` header value,
and body text. -/
structure HttpResp where
  status : Nat
  retry_after : Option Nat
  body : List Char
deriving DecidableEq, Repr

/-- Result of a fetch call: parsed body, or the raised upstream error whose
message embeds the original status and body
(`Spotify API error {status} at {url}: {text}`). -/
inductive FetchResult where
  | ok (body : List Char)
  | upstreamError (status : Nat) (body : List Char)
deriving DecidableEq, Repr

/-- Events a caller performs against the global `rate_limited` gate:
awaiting it open, clearing it, sleeping, setting it. -/
inductive GateEvent where
  | waitOpen
  | clear
  | sleep (secs : Nat)
  | set
deriving DecidableEq, Repr

/-- `fetch_json` over the per-attempt response oracle `responses`, with the
events it performs against the gate.  On 429 it reads `Retry-After`
(defaulting to 1), clears the gate, sleeps `retry_after + 1`, sets the gate,
and recurses with no attempt bound; `fuel` counts attempts we unfold, and
`none` means the recursion is still running after that many attempts.
On 200 the body is returned; any other status raises the upstream error. -/
def fetch_json_run (responses : Nat → HttpResp) :
    Nat → Nat → List GateEvent × Option FetchResult
  | 0, _ => ([], none)
  | fuel + 1, k =>
    let r := responses k
    if r.status = 429 then
      let retry_after := r.retry_after.getD 1
      let rest := fetch_json_run responses fuel (k + 1)
      (GateEvent.waitOpen :: GateEvent.clear :: GateEvent.sleep (retry_after + 1) ::
        GateEvent.set :: rest.1, rest.2)
    else if r.status = 200 then ([GateEvent.waitOpen], some (.ok r.body))
    else ([GateEvent.waitOpen], some (.upstreamError r.status r.body))

/-- `post_json`: identical shape, except both 200 and 201 are successes. -/
def post_json_run (responses : Nat → HttpResp) :
    Nat → Nat → List GateEvent × Option FetchResult
  | 0, _ => ([], none)
  | fuel + 1, k =>
    let r := responses k
    if r.status = 429 then
      let retry_after := r.retry_after.getD 1
      let rest := post_json_run responses fuel (k + 1)
      (GateEvent.waitOpen :: GateEvent.clear :: GateEvent.sleep (retry_after + 1) ::
        GateEvent.set :: rest.1, rest.2)
    else if r.status = 200 || r.status = 201 then ([GateEvent.waitOpen], some (.ok r.body))
    else ([GateEvent.waitOpen], some (.upstreamError r.status r.body))

/-- Number of backoff sleeps in an event schedule. -/
def sleepCount (es : List GateEvent) : Nat :=
  (es.filter (fun e => match e with | .sleep _ => true | _ => false)).length

/-- Interleavings of two callers' event sequences (each caller's own order is
preserved; steps are interleaved arbitrarily). -/
inductive Merge : List GateEvent → List GateEvent → List GateEvent → Prop
  | nil : Merge [] [] []
  | left {x : GateEvent} {xs ys zs} : Merge xs ys zs → Merge (x :: xs) ys (x :: zs)
  | right {y : GateEvent} {xs ys zs} : Merge xs ys zs → Merge xs (y :: ys) (y :: zs)

/-- Response oracle: one 429 (with the given `Retry-After` header) followed by
200s. -/
def oneLimitedThen200 (ra : Option Nat) (b : List Char) : Nat → HttpResp
  | 0 => { status := 429, retry_after := ra, body := [] }
  | _ + 1 => { status := 200, retry_after := none, body := b }

/-- Response oracle: the upstream answers 429 on every attempt. -/
def always429 (ra : Option Nat) : Nat → HttpResp :=
  fun _ => { status := 429, retry_after := ra, body := [] }

/-! ## Concrete fixtures used by witnesses and counterexamples -/

/-- Fixture: a track with a distinct id, title and artist. -/
def trackA : Track := ⟨("a1").toList, ("uA").toList, ("Song A").toList, ("Artist").toList⟩

/-- Fixture: a second track. -/
def trackB : Track := ⟨("b2").toList, ("uB").toList, ("Song B").toList, ("Artist").toList⟩

/-- Fixture: first of two tracks sharing the same artist and title. -/
def trackDup1 : Track := ⟨("1").toList, ("u").toList, ("Song").toList, ("A").toList⟩

/-- Fixture: second of two tracks sharing the same artist and title. -/
def trackDup2 : Track := ⟨("2").toList, ("u").toList, ("Song").toList, ("A").toList⟩

/-- Fixture oracle: item 0 fails, all other items succeed. -/
def fetchMixed : Nat → Track → DownloadResult := fun i t =>
  if i = 0 then { track := t, success := false, file_path := none, error := some (("boom").toList) }
  else { track := t, success := true, file_path := some (t.id ++ (".mp3").toList), error := none }

/-- Fixture oracle: every item fails. -/
def fetchFail : Nat → Track → DownloadResult := fun _ t =>
  { track := t, success := false, file_path := none, error := some (("boom").toList) }

/-- Fixture oracle: every item succeeds, downloading to `<id>.mp3`. -/
def fetchOk : Nat → Track → DownloadResult := fun _ t =>
  { track := t, success := true, file_path := some (t.id ++ (".mp3").toList), error := none }

/-- Fixture filesystem: the bytes of a file are its path length. -/
def contentsLen : List Char → List Nat := fun p => [p.length]

/-- Fixture request body: one track carrying only an id. -/
def bodyOneTrack : Json :=
  .obj [((("tracks").toList), .arr [.obj [((("id").toList), .str (("1").toList))]])]

/-- Fixture request body: one track carrying an id and a `permalink_url` but
no `url`. -/
def bodyPermalink : Json :=
  .obj [((("tracks").toList), .arr [.obj [((("id").toList), .str (("1").toList)),
    ((("permalink_url").toList), .str (("X").toList))]])]

/-- Fixture request body: two tracks, one with a `user.username` and a `url`,
one with only an id. -/
def bodyTwoTracks : Json :=
  .obj [((("tracks").toList), .arr
    [.obj [((("id").toList), .str (("1").toList)),
      ((("url").toList), .str (("https://a/b").toList)),
      ((("user").toList), .obj [((("username").toList), .str (("Bob").toList))])],
     .obj [((("id").toList), .str (("2").toList))]])]

/-- Fixture track for the matcher scenarios. -/
def trackMeta : Track := ⟨("777").toList, ("u").toList, ("Song").toList, ("Artist").toList⟩

/-- Fixture directory: the first audio file has no readable tags, the second
one's embedded title tag matches `trackMeta`'s title; neither filename
matches the SafeName prefix or the id. -/
def scdlFiles : List ScdlFile :=
  [⟨("mix.mp3").toList, none⟩, ⟨("take.mp3").toList, some ((("Song").toList), [])⟩]

/-! ## Lemmas: sanitization -/

/-- Characters of a collapsed string come from the input or are the space
that replaced a whitespace run. -/
theorem mem_collapseWsAux {c : Char} :
    ∀ (b : Bool) (l : List Char), c ∈ collapseWsAux b l → c ∈ l ∨ c = ' '
  | _, [] => by simp [collapseWsAux]
  | b, x :: rest => by
    by_cases hx : isPySpace x
    · cases b with
      | true =>
        intro h
        rw [collapseWsAux, if_pos hx, if_pos rfl] at h
        rcases mem_collapseWsAux true rest h with h1 | h1
        · exact .inl (List.mem_cons_of_mem _ h1)
        · exact .inr h1
      | false =>
        intro h
        rw [collapseWsAux, if_pos hx] at h
        simp only [if_neg Bool.false_ne_true] at h
        rcases List.mem_cons.mp h with h1 | h1
        · exact .inr h1
        · rcases mem_collapseWsAux true rest h1 with h2 | h2
          · exact .inl (List.mem_cons_of_mem _ h2)
          · exact .inr h2
    · intro h
      rw [collapseWsAux, if_neg hx] at h
      rcases List.mem_cons.mp h with h1 | h1
      · exact .inl (h1 ▸ List.mem_cons_self _ _)
      · rcases mem_collapseWsAux false rest h1 with h2 | h2
        · exact .inl (List.mem_cons_of_mem _ h2)
        · exact .inr h2

/-- Inside a whitespace run, the collapsed output never starts with a
whitespace character. -/
theorem collapseWsAux_true_head :
    ∀ (l : List Char) {c : Char},
      (collapseWsAux true l).head? = some c → isPySpace c = false
  | [], c => by simp [collapseWsAux]
  | x :: rest, c => by
    by_cases hx : isPySpace x
    · rw [collapseWsAux, if_pos hx, if_pos rfl]
      exact collapseWsAux_true_head rest
    · rw [collapseWsAux, if_neg hx]
      intro h
      simp only [List.head?_cons, Option.some.injEq] at h
      subst h
      simpa using hx

/-- The collapsed string never contains two consecutive whitespace
characters. -/
theorem chain'_collapseWsAux :
    ∀ (b : Bool) (l : List Char), noWsPair (collapseWsAux b l)
  | _, [] => by simp [collapseWsAux, noWsPair]
  | b, x :: rest => by
    by_cases hx : isPySpace x
    · cases b with
      | true =>
        rw [collapseWsAux, if_pos hx, if_pos rfl]
        exact chain'_collapseWsAux true rest
      | false =>
        rw [collapseWsAux, if_pos hx]
        simp only [if_neg Bool.false_ne_true]
        unfold noWsPair
        rw [List.chain'_cons']
        refine ⟨?_, chain'_collapseWsAux true rest⟩
        rintro y hy ⟨-, h2⟩
        have hws := collapseWsAux_true_head rest (Option.mem_def.mp hy)
        rw [hws] at h2
        cases h2
    · rw [collapseWsAux, if_neg hx]
      unfold noWsPair
      rw [List.chain'_cons']
      refine ⟨?_, chain'_collapseWsAux false rest⟩
      rintro y hy ⟨h1, -⟩
      exact hx h1

/-- Stripping only removes a prefix of the (already left-trimmed) string. -/
theorem stripWs_prefix (l : List Char) : stripWs l <+: l.dropWhile isPySpace := by
  unfold stripWs
  have h1 : (l.dropWhile isPySpace).reverse.dropWhile isPySpace <:+
      (l.dropWhile isPySpace).reverse := List.dropWhile_suffix _
  have h2 := List.reverse_prefix.mpr h1
  simpa using h2

/-- The stripped string is an infix of the original. -/
theorem stripWs_within (l : List Char) : stripWs l <:+: l :=
  List.infix_iff_prefix_suffix.mpr
    ⟨l.dropWhile isPySpace, stripWs_prefix l, List.dropWhile_suffix _⟩

/-- The stripped string never starts with whitespace. -/
theorem stripWs_head_not_ws (l : List Char) {c : Char}
    (h : (stripWs l).head? = some c) : isPySpace c = false := by
  obtain ⟨r, hr⟩ := stripWs_prefix l
  have hm : (l.dropWhile isPySpace).head? = some c := by
    rw [← hr, List.head?_append, h]
    rfl
  have h2 := List.head?_dropWhile_not isPySpace l
  simp only [hm] at h2
  exact h2

/-- The stripped string never ends with whitespace. -/
theorem stripWs_getLast_not_ws (l : List Char) {c : Char}
    (h : (stripWs l).getLast? = some c) : isPySpace c = false := by
  unfold stripWs at h
  rw [List.getLast?_reverse] at h
  have h2 := List.head?_dropWhile_not isPySpace (l.dropWhile isPySpace).reverse
  simp only [h] at h2
  exact h2

/-- Sanitized strings contain none of the stripped characters. -/
theorem sanitize_noBadChars (s : List Char) : noBadChars (sanitize s) := by
  intro c hc
  have h1 : c ∈ collapseWs (s.filter (fun c => !isBadChar c)) :=
    (stripWs_within _).subset hc
  rcases mem_collapseWsAux false _ h1 with h2 | h2
  · have := (List.mem_filter.mp h2).2
    simpa using this
  · subst h2
    decide

/-- Sanitized strings contain no two consecutive whitespace characters. -/
theorem sanitize_noWsPair (s : List Char) : noWsPair (sanitize s) :=
  List.Chain'.infix (chain'_collapseWsAux false _) (stripWs_within _)

/-- Sanitized strings never start with whitespace. -/
theorem sanitize_head_not_ws (s : List Char) {c : Char}
    (h : (sanitize s).head? = some c) : isPySpace c = false :=
  stripWs_head_not_ws _ h

/-- Sanitized strings never end with whitespace. -/
theorem sanitize_getLast_not_ws (s : List Char) {c : Char}
    (h : (sanitize s).getLast? = some c) : isPySpace c = false :=
  stripWs_getLast_not_ws _ h

/-- C4 (amended): `Track.safe_filename` always has length at most 150; for an
empty artist and title it equals `"track_" ++ id` truncated to 150 (so the raw
id is embedded verbatim there); and whenever the sanitized title is non-empty
(the two non-fallback branches) the result contains none of the stripped
characters and no two consecutive whitespace characters. -/
theorem safe_filename_ok (t : Track) :
    (Track.safe_filename t).length ≤ 150 ∧
    (t.artist = [] → t.title = [] →
      Track.safe_filename t = (("track_").toList ++ t.id).take 150) ∧
    ((sanitize t.title).isEmpty = false →
      noBadChars (Track.safe_filename t) ∧ noWsPair (Track.safe_filename t)) := by
  refine ⟨?_, ?_, ?_⟩
  · exact List.length_take_le _ _
  · intro ha hti
    simp only [Track.safe_filename]
    rw [ha, hti]
    rfl
  · intro hst
    by_cases hsa : (sanitize t.artist).isEmpty
    · have hbranch : Track.safe_filename t = (sanitize t.title).take 150 := by
        simp only [Track.safe_filename]
        rw [hsa, hst]
        rfl
      rw [hbranch]
      constructor
      · exact fun c hc => sanitize_noBadChars t.title c (List.mem_of_mem_take hc)
      · exact List.Chain'.take (sanitize_noWsPair t.title) 150
    · have hsa' : (sanitize t.artist).isEmpty = false := by
        simpa using hsa
      have hbranch : Track.safe_filename t =
          (sanitize t.artist ++ (" - ").toList ++ sanitize t.title).take 150 := by
        simp only [Track.safe_filename]
        rw [hsa', hst]
        rfl
      rw [hbranch]
      constructor
      · intro c hc
        have hc' := List.mem_of_mem_take hc
        rcases List.mem_append.mp hc' with h1 | h1
        · rcases List.mem_append.mp h1 with h2 | h2
          · exact sanitize_noBadChars t.artist c h2
          · have h2' : c ∈ [' ', '-', ' '] := h2
            simp only [List.mem_cons, List.not_mem_nil, or_false] at h2'
            rcases h2' with h3 | h3 | h3 <;> rw [h3] <;> decide
        · exact sanitize_noBadChars t.title c h1
      · unfold noWsPair
        apply List.Chain'.take
        rw [List.chain'_append]
        refine ⟨?_, sanitize_noWsPair t.title, ?_⟩
        · rw [List.chain'_append]
          have hspacer : List.Chain' (fun a b => ¬(isPySpace a = true ∧ isPySpace b = true))
              ((" - ").toList) := by
            rw [show (" - ").toList = [' ', '-', ' '] from rfl]
            rw [List.chain'_cons, List.chain'_cons]
            refine ⟨by decide, by decide, List.chain'_singleton _⟩
          refine ⟨sanitize_noWsPair t.artist, hspacer, ?_⟩
          rintro x hx y hy ⟨h1, -⟩
          have := sanitize_getLast_not_ws t.artist (Option.mem_def.mp hx)
          rw [this] at h1
          cases h1
        · rintro x hx y hy ⟨-, h2⟩
          have := sanitize_head_not_ws t.title (Option.mem_def.mp hy)
          rw [this] at h2
          cases h2

/-- C4 (counterexample): for artist `"Bob"`, title `"*"`, id `"7"` the source
computes `"track_7"` (the title sanitizes to empty, so the `track_<id>`
fallback fires even though the artist is non-empty), while the claim's
formula — sanitize the composed `"artist - title"` and fall back only when
that is empty — computes `"Bob -"`.  The two disagree, so SafeName is not the
sanitized concatenation the claim describes. -/
theorem safe_filename_spec_formula_cex :
    Track.safe_filename ⟨("7").toList, [], ("*").toList, ("Bob").toList⟩ =
      ("track_7").toList ∧
    specSafeName ⟨("7").toList, [], ("*").toList, ("Bob").toList⟩ =
      ("Bob -").toList ∧
    ("track_7").toList ≠ ("Bob -").toList := by
  decide

/-- C4 witness: the amended theorem applied at concrete inputs, discharging
its hypotheses there. -/
theorem safe_filename_ok_witness :
    ((sanitize (("My* Song   x").toList)).isEmpty = false ∧
      noBadChars (Track.safe_filename
        ⟨("9").toList, [], ("My* Song   x").toList, ("A<B ").toList⟩) ∧
      noWsPair (Track.safe_filename
        ⟨("9").toList, [], ("My* Song   x").toList, ("A<B ").toList⟩)) ∧
    (Track.safe_filename ⟨("7").toList, [], [], []⟩ =
      (("track_").toList ++ ("7").toList).take 150) :=
  ⟨⟨by decide,
    ((safe_filename_ok ⟨("9").toList, [], ("My* Song   x").toList, ("A<B ").toList⟩).2.2
      (by decide)).1,
    ((safe_filename_ok ⟨("9").toList, [], ("My* Song   x").toList, ("A<B ").toList⟩).2.2
      (by decide)).2⟩,
    (safe_filename_ok ⟨("7").toList, [], [], []⟩).2.1 rfl rfl⟩

/-! ## Lemmas: index alignment and the gather model -/

/-- The indexed map preserves length. -/
theorem length_enumMapFrom (f : Nat → α → β) :
    ∀ (k : Nat) (l : List α), (enumMapFrom f k l).length = l.length
  | _, [] => rfl
  | k, _ :: as => by
    simp [enumMapFrom, length_enumMapFrom f (k + 1) as]

/-- Element `i` of the indexed map, for `i` in range. -/
theorem getElem?_enumMapFrom (f : Nat → α → β) (d : α) :
    ∀ (k : Nat) (l : List α) (i : Nat), i < l.length →
      (enumMapFrom f k l)[i]? = some (f (k + i) (l.getD i d))
  | _, [], i, h => by simp at h
  | _, a :: as, 0, _ => by simp [enumMapFrom]
  | k, a :: as, i + 1, h => by
    rw [enumMapFrom, List.getElem?_cons_succ, List.getD_cons_succ,
      show k + (i + 1) = k + 1 + i by omega]
    exact getElem?_enumMapFrom f d (k + 1) as i (by simpa using h)

/-- Element `i` of the indexed map starting at 0. -/
theorem getElem?_enumMap (f : Nat → α → β) (d : α) (l : List α) (i : Nat)
    (h : i < l.length) :
    (enumMap f l)[i]? = some (f i (l.getD i d)) := by
  simpa using getElem?_enumMapFrom f d 0 l i h

/-- Every element of the indexed map is some `f i a`. -/
theorem mem_enumMapFrom {b : β} (f : Nat → α → β) :
    ∀ (k : Nat) (l : List α), b ∈ enumMapFrom f k l → ∃ i a, b = f i a
  | _, [], h => absurd h (List.not_mem_nil b)
  | k, a :: as, h => by
    rcases List.mem_cons.mp h with h1 | h1
    · exact ⟨k, a, h1⟩
    · exact mem_enumMapFrom f (k + 1) as h1

/-- Completing tasks outside slot `i` never changes slot `i`. -/
theorem fillSlots_not_mem (outcome : Nat → α) :
    ∀ (order : List Nat) (s : Nat → Option α) (i : Nat), i ∉ order →
      fillSlots outcome order s i = s i
  | [], _, _, _ => rfl
  | j :: rest, s, i, h => by
    rw [fillSlots]
    rw [fillSlots_not_mem outcome rest _ i (fun hh => h (List.mem_cons_of_mem _ hh))]
    have hij : i ≠ j := fun hh => h (hh ▸ List.mem_cons_self _ _)
    simp [hij]

/-- Once task `i` has completed, slot `i` holds its outcome, whatever else
completed before or after it. -/
theorem fillSlots_mem (outcome : Nat → α) :
    ∀ (order : List Nat) (s : Nat → Option α) (i : Nat), i ∈ order →
      fillSlots outcome order s i = some (outcome i)
  | [], _, i, h => absurd h (List.not_mem_nil i)
  | j :: rest, s, i, h => by
    by_cases hir : i ∈ rest
    · exact fillSlots_mem outcome rest _ i hir
    · have hij : i = j := by
        rcases List.mem_cons.mp h with h1 | h1
        · exact h1
        · exact absurd h1 hir
      subst hij
      rw [fillSlots, fillSlots_not_mem outcome rest _ i hir]
      simp

/-- C1: for a non-empty batch, whatever order the dispatched fetches complete
in, the gathered outcome list equals the index-aligned list of per-item
outcomes: it has one entry per input item, entry `i` is the outcome of item
`i`, and `download_tracks` returns exactly that list whenever it returns —
so one item's outcome never removes, reorders or replaces another's. -/
theorem download_tracks_index_aligned (tracks : List Track)
    (fetch : Nat → Track → DownloadResult) (contents : List Char → List Nat)
    (order : List Nat) (hne : tracks ≠ [])
    (hall : ∀ i, i < tracks.length → i ∈ order) :
    gatherOutcomes tracks.length (fun i => fetch i (tracks.getD i ⟨[], [], [], []⟩)) order
      = (enumMap fetch tracks).map some ∧
    (enumMap fetch tracks).length = tracks.length ∧
    (∀ i, i < tracks.length →
      (enumMap fetch tracks)[i]? = some (fetch i (tracks.getD i ⟨[], [], [], []⟩))) ∧
    (∀ zips results, download_tracks fetch contents tracks = .ok (zips, results) →
      results = enumMap fetch tracks) := by
  refine ⟨?_, length_enumMapFrom fetch 0 tracks, ?_, ?_⟩
  · apply List.ext_getElem?
    intro i
    by_cases hi : i < tracks.length
    · rw [gatherOutcomes, List.getElem?_map, List.getElem?_range hi,
        List.getElem?_map, getElem?_enumMap fetch ⟨[], [], [], []⟩ tracks i hi]
      simp [fillSlots_mem _ order _ i (hall i hi)]
    · have hge : tracks.length ≤ i := Nat.le_of_not_lt hi
      rw [gatherOutcomes, List.getElem?_map,
        List.getElem?_eq_none (by simpa using hge),
        List.getElem?_map,
        List.getElem?_eq_none (by rw [enumMap, length_enumMapFrom]; exact hge)]
      rfl
  · intro i hi
    exact getElem?_enumMap fetch ⟨[], [], [], []⟩ tracks i hi
  · intro zips results h
    have hemp : tracks.isEmpty = false := by
      cases tracks with
      | nil => exact absurd rfl hne
      | cons a as => rfl
    simp only [download_tracks, download_tracks_run, hemp, Bool.false_eq_true, if_false] at h
    split at h
    · cases h
    · simp only [Except.ok.injEq, Prod.mk.injEq] at h
      exact h.2.symm

/-- C1 witness: a two-item batch whose item 0 fails, completing in reversed
order, still yields the index-aligned outcome list. -/
theorem download_tracks_index_aligned_witness :
    ([trackA, trackB] ≠ ([] : List Track)) ∧
    gatherOutcomes ([trackA, trackB] : List Track).length
        (fun i => fetchMixed i ([trackA, trackB].getD i ⟨[], [], [], []⟩)) [1, 0]
      = (enumMap fetchMixed [trackA, trackB]).map some := by
  refine ⟨by decide, ?_⟩
  exact (download_tracks_index_aligned [trackA, trackB] fetchMixed contentsLen [1, 0]
    (by decide)
    (fun i hi => by
      have hi2 : i < 2 := hi
      interval_cases i <;> decide)).1

/-! ## Lemmas: the validation loop -/

/-- An accepted batch has exactly one track per entry. -/
theorem validate_entries_ok_length :
    ∀ (xs : List Json) (i : Nat) (u : Option Json) (ts : List Track) (un : List Char),
      validate_entries i u xs = .ok ts un → ts.length = xs.length
  | [], _, _, ts, _ => by
    intro h
    simp only [validate_entries, VOut.ok.injEq] at h
    rw [← h.1]
    rfl
  | t :: rest, i, u, ts, un => by
    intro h
    cases t with
    | obj fs =>
      simp only [validate_entries] at h
      split at h
      · simp at h
      · split at h
        · rename_i ts' u' hrec
          simp only [VOut.ok.injEq] at h
          rw [← h.1, List.length_cons, List.length_cons,
            validate_entries_ok_length rest (i + 1) _ ts' u' hrec]
        · rename_i e hne
          exact absurd h (hne ts un)
    | null => simp [validate_entries] at h
    | bool b => simp [validate_entries] at h
    | num n => simp [validate_entries] at h
    | str s => simp [validate_entries] at h
    | arr elems => simp [validate_entries] at h

/-- A successfully validated request always carries at least one track. -/
theorem validate_request_ok_ne_nil {body : Json} {ts : List Track} {un : List Char}
    (h : validate_request body = .ok ts un) : ts ≠ [] := by
  simp only [validate_request] at h
  split at h
  · simp at h
  · rename_i htruthy
    split at h
    · rename_i kvs
      split at h
      · simp at h
      · rename_i htd
        split at h
        · rename_i td xs hxs
          split at h
          · simp at h
          · have hlen := validate_entries_ok_length xs 0 none ts un h
            have hxs' : xs ≠ [] := by
              intro hnil
              rw [hnil] at hxs
              rw [hxs] at htd
              simp [Json.truthy] at htd
            intro hts
            rw [hts] at hlen
            exact hxs' (List.length_eq_zero.mp hlen.symm)
        · rename_i td s hs
          split at h
          · simp at h
          · have hlen := validate_entries_ok_length _ 0 none ts un h
            have hs' : s ≠ [] := by
              intro hnil
              rw [hnil] at hs
              rw [hs] at htd
              simp [Json.truthy] at htd
            intro hts
            rw [hts] at hlen
            simp only [List.length_nil, List.length_map] at hlen
            exact hs' (List.length_eq_zero.mp hlen.symm)
        · rename_i td kvs2 hk
          split at h
          · simp at h
          · have hlen := validate_entries_ok_length _ 0 none ts un h
            have hk' : kvs2 ≠ [] := by
              intro hnil
              rw [hnil] at hk
              rw [hk] at htd
              simp [Json.truthy] at htd
            intro hts
            rw [hts] at hlen
            simp only [List.length_nil, List.length_map] at hlen
            exact hk' (List.length_eq_zero.mp hlen.symm)
        · simp at h
    · simp at h

/-- C2 (amended): when every item's fetch fails on a validated batch, the
handler returns the `All downloads failed` error, no zip file was ever
created and nothing was uploaded — but the workspace directory still exists
when the handler returns (the cleanup step runs only on the success path). -/
theorem all_fail_wholesale (fetch : Nat → Track → DownloadResult)
    (contents : List Char → List Nat) (uploadOk : Bool) (body : Json)
    (tracks : List Track) (un : List Char)
    (hv : validate_request body = .ok tracks un)
    (hfail : ∀ i t, (fetch i t).success = false) :
    handler_run fetch contents uploadOk body SysState.init =
      (.err (.downloadError (("All downloads failed").toList)),
        { workspaceExists := true, zipExists := false, uploaded := false }) := by
  have hne : tracks ≠ [] := validate_request_ok_ne_nil hv
  have hemp : tracks.isEmpty = false := by
    cases tracks with
    | nil => exact absurd rfl hne
    | cons a as => rfl
  have hsucc : collect_successful (enumMap fetch tracks) = [] := by
    rw [collect_successful, List.filter_eq_nil_iff]
    intro r hr
    obtain ⟨i, a, rfl⟩ := mem_enumMapFrom fetch 0 tracks hr
    simp [hfail i a]
  simp [handler_run, hv, process_download, download_tracks_run, hemp, hsucc, SysState.init]

/-- C2 witness: the amended theorem applied to a concrete one-item request
whose fetch fails. -/
theorem all_fail_wholesale_witness :
    validate_request bodyOneTrack =
      .ok [⟨("1").toList, ("https://api.soundcloud.com/tracks/1").toList,
        ("Track 1").toList, ("Unknown Artist").toList⟩] (("xomcloud").toList) ∧
    handler_run fetchFail contentsLen true bodyOneTrack SysState.init =
      (.err (.downloadError (("All downloads failed").toList)),
        { workspaceExists := true, zipExists := false, uploaded := false }) :=
  ⟨by decide,
    all_fail_wholesale fetchFail contentsLen true bodyOneTrack
      [⟨("1").toList, ("https://api.soundcloud.com/tracks/1").toList,
        ("Track 1").toList, ("Unknown Artist").toList⟩] (("xomcloud").toList)
      (by decide) (fun _ _ => rfl)⟩

/-- C2 (counterexample): on an all-fail batch the handler does fail with the
all-downloads-failed error and nothing is zipped or uploaded, but the
workspace directory still exists afterwards, contradicting the claim's
"the batch's workspace directory no longer exists afterward". -/
theorem all_fail_workspace_leak_cex :
    (handler_run fetchFail contentsLen true bodyOneTrack SysState.init).1 =
      .err (.downloadError (("All downloads failed").toList)) ∧
    (handler_run fetchFail contentsLen true bodyOneTrack SysState.init).2.zipExists = false ∧
    (handler_run fetchFail contentsLen true bodyOneTrack SysState.init).2.uploaded = false ∧
    (handler_run fetchFail contentsLen true bodyOneTrack SysState.init).2.workspaceExists
      = true := by
  decide

/-- C3 (amended): starting from a fresh state, the workspace directory is
gone when the handler returns exactly on the paths that never created it
(validation failure, parse fault) or ran the success-path cleanup (download
and upload both succeeded); on the all-downloads-failed and storage-failure
paths the workspace survives the handler's return. -/
theorem workspace_cleanup_iff (fetch : Nat → Track → DownloadResult)
    (contents : List Char → List Nat) (uploadOk : Bool) (body : Json) :
    ((handler_run fetch contents uploadOk body SysState.init).2.workspaceExists = false) ↔
      ((handler_run fetch contents uploadOk body SysState.init).1.isOk = true ∨
        (handler_run fetch contents uploadOk body SysState.init).1.failedBeforeDispatch
          = true) := by
  rcases hval : validate_request body with ⟨tracks, un⟩ | msg | _
  · have hne : tracks ≠ [] := validate_request_ok_ne_nil hval
    have hemp : tracks.isEmpty = false := by
      cases tracks with
      | nil => exact absurd rfl hne
      | cons a as => rfl
    by_cases hsucc : (collect_successful (enumMap fetch tracks)).isEmpty
    · simp [handler_run, hval, process_download, download_tracks_run, hemp, hsucc,
        HResp.isOk, HResp.failedBeforeDispatch]
    · have hsucc' : (collect_successful (enumMap fetch tracks)).isEmpty = false := by
        simpa using hsucc
      cases uploadOk
      · simp [handler_run, hval, process_download, download_tracks_run, hemp, hsucc',
          HResp.isOk, HResp.failedBeforeDispatch]
      · simp [handler_run, hval, process_download, download_tracks_run, hemp, hsucc',
          HResp.isOk, HResp.failedBeforeDispatch]
  · simp [handler_run, hval, HResp.isOk, HResp.failedBeforeDispatch, SysState.init]
  · simp [handler_run, hval, HResp.isOk, HResp.failedBeforeDispatch, SysState.init]

/-- C3 (counterexample): on the storage-failure exit path (downloads succeed,
the upload raises) the handler returns the error response while the workspace
directory still exists — cleanup did not happen on this exit path,
contradicting "removed on every exit path". -/
theorem workspace_leak_on_storage_failure_cex :
    (handler_run fetchOk contentsLen false bodyOneTrack SysState.init).1 =
      .err (.storageError (("upload failed").toList)) ∧
    (handler_run fetchOk contentsLen false bodyOneTrack SysState.init).2.workspaceExists
      = true := by
  decide

/-- C5 (amended): when at least one item of a non-empty batch succeeds, the
archive holds exactly one entry per successful result; every successful
result's entry (SafeName plus the downloaded file's real extension, bytes
equal to the source file's bytes) is in the archive, and every archive entry
arises from a successful result that way.  No disambiguation is applied:
results sharing a name yield duplicate-named entries. -/
theorem archive_contents (tracks : List Track) (fetch : Nat → Track → DownloadResult)
    (contents : List Char → List Nat) (hne : tracks ≠ [])
    (hM : collect_successful (enumMap fetch tracks) ≠ []) :
    ∃ entries,
      download_tracks fetch contents tracks = .ok (entries, enumMap fetch tracks) ∧
      entries.length = (collect_successful (enumMap fetch tracks)).length ∧
      (∀ r ∈ enumMap fetch tracks, r.success = true → r.file_path.isSome = true →
        zip_entry_of contents r ∈ entries) ∧
      (∀ e ∈ entries, ∃ r, r ∈ enumMap fetch tracks ∧ r.success = true ∧
        r.file_path.isSome = true ∧
        e.arcname = r.track.safe_filename ++ splitextExt (r.file_path.getD []) ∧
        e.data = contents (r.file_path.getD [])) := by
  have hemp : tracks.isEmpty = false := by
    cases tracks with
    | nil => exact absurd rfl hne
    | cons a as => rfl
  have hsucc : (collect_successful (enumMap fetch tracks)).isEmpty = false := by
    cases hcs : collect_successful (enumMap fetch tracks) with
    | nil => exact absurd hcs hM
    | cons a as => rfl
  refine ⟨build_zip contents (collect_successful (enumMap fetch tracks)), ?_, ?_, ?_, ?_⟩
  · simp [download_tracks, download_tracks_run, hemp, hsucc]
  · simp [build_zip]
  · intro r hr hs hp
    rw [build_zip]
    refine List.mem_map_of_mem _ ?_
    rw [collect_successful]
    exact List.mem_filter.mpr ⟨hr, by simp [hs, hp]⟩
  · intro e he
    rw [build_zip] at he
    obtain ⟨r, hr, rfl⟩ := List.mem_map.mp he
    rw [collect_successful] at hr
    have hr' := List.mem_filter.mp hr
    have hcond := hr'.2
    simp only [Bool.and_eq_true] at hcond
    exact ⟨r, hr'.1, hcond.1, hcond.2, rfl, rfl⟩

/-- C5 witness: a concrete two-item batch with one success produces the
archive the amended theorem describes. -/
theorem archive_contents_witness :
    collect_successful (enumMap fetchMixed [trackA, trackB]) ≠ [] ∧
    ∃ entries, download_tracks fetchMixed contentsLen [trackA, trackB] =
      .ok (entries, enumMap fetchMixed [trackA, trackB]) := by
  refine ⟨by decide, ?_⟩
  obtain ⟨e, he, -, -, -⟩ :=
    archive_contents [trackA, trackB] fetchMixed contentsLen (by decide) (by decide)
  exact ⟨e, he⟩

/-- C5 (counterexample): two successful items with the same artist and title
resolve to the same entry name and the archive simply contains two entries
with that identical name — no disambiguation suffix is applied, contradicting
the claim's "a disambiguation suffix is applied so that the archive still
contains M distinct entries". -/
theorem archive_no_disambiguation_cex :
    (download_tracks fetchOk contentsLen [trackDup1, trackDup2]).toOption.map
        (fun p => p.1.map ZipEntry.arcname) =
      some [("A - Song.mp3").toList, ("A - Song.mp3").toList] := by
  decide

/-! ## Lemmas: rate gate and fetch client -/

/-- Interleaving two callers preserves the number of backoff sleeps. -/
theorem merge_sleepCount {xs ys zs : List GateEvent} (h : Merge xs ys zs) :
    sleepCount zs = sleepCount xs + sleepCount ys := by
  induction h with
  | nil => rfl
  | left h ih =>
    rename_i x _ _ _
    simp only [sleepCount, List.filter_cons] at *
    split
    · simp only [List.length_cons, ih]
      omega
    · exact ih
  | right h ih =>
    rename_i y _ _ _
    simp only [sleepCount, List.filter_cons] at *
    split
    · simp only [List.length_cons, ih]
      omega
    · exact ih

/-- One caller running before another is one particular interleaving. -/
theorem merge_nil_left : ∀ (ys : List GateEvent), Merge [] ys ys
  | [] => .nil
  | _ :: ys => .right (merge_nil_left ys)

/-- Sequential composition is an interleaving. -/
theorem merge_append : ∀ (xs ys : List GateEvent), Merge xs ys (xs ++ ys)
  | [], ys => merge_nil_left ys
  | _ :: xs, ys => .left (merge_append xs ys)

/-- C6 (code bug): two concurrent callers that each observe one 429 response
within the same episode each execute the clear–sleep–set sequence, so every
interleaving of their gate events contains exactly two backoff sleeps — not
the single sleep the single-flight invariant demands. -/
theorem rate_gate_every_observer_sleeps (ra1 ra2 : Option Nat) (b1 b2 : List Char)
    (zs : List GateEvent)
    (h : Merge (fetch_json_run (oneLimitedThen200 ra1 b1) 2 0).1
               (fetch_json_run (oneLimitedThen200 ra2 b2) 2 0).1 zs) :
    sleepCount zs = 2 := by
  have h1 : sleepCount (fetch_json_run (oneLimitedThen200 ra1 b1) 2 0).1 = 1 := by
    simp [fetch_json_run, oneLimitedThen200, sleepCount]
  have h2 : sleepCount (fetch_json_run (oneLimitedThen200 ra2 b2) 2 0).1 = 1 := by
    simp [fetch_json_run, oneLimitedThen200, sleepCount]
  rw [merge_sleepCount h, h1, h2]

/-- C6 witness: a concrete interleaving of two 429 observers, with its two
sleeps counted by the theorem. -/
theorem rate_gate_every_observer_sleeps_witness :
    Merge (fetch_json_run (oneLimitedThen200 (some 2) []) 2 0).1
      (fetch_json_run (oneLimitedThen200 none []) 2 0).1
      ((fetch_json_run (oneLimitedThen200 (some 2) []) 2 0).1 ++
        (fetch_json_run (oneLimitedThen200 none []) 2 0).1) ∧
    sleepCount ((fetch_json_run (oneLimitedThen200 (some 2) []) 2 0).1 ++
      (fetch_json_run (oneLimitedThen200 none []) 2 0).1) = 2 :=
  ⟨merge_append _ _,
    rate_gate_every_observer_sleeps (some 2) none [] [] _ (merge_append _ _)⟩

/-- C7 (code bug): against an upstream that answers 429 on every attempt,
both `fetch_json` and `post_json` are still retrying after any number of
attempts — no attempt bound exists and no upstream error is ever surfaced,
contradicting the claimed bounded retry. -/
theorem retry_unbounded (ra : Option Nat) : ∀ (fuel k : Nat),
    (fetch_json_run (always429 ra) fuel k).2 = none ∧
    (post_json_run (always429 ra) fuel k).2 = none
  | 0, _ => ⟨rfl, rfl⟩
  | fuel + 1, k => by
    constructor
    · rw [fetch_json_run, if_pos (show (always429 ra k).status = 429 from rfl)]
      exact (retry_unbounded ra fuel (k + 1)).1
    · rw [post_json_run, if_pos (show (always429 ra k).status = 429 from rfl)]
      exact (retry_unbounded ra fuel (k + 1)).2

/-- C9 (amended): after awaiting the gate, a GET fails with the upstream
error (carrying the original status and body) on every status other than 200
and 429 — including 201 — while a POST fails only on statuses other than 200,
201 and 429 and treats 201 as success. -/
theorem fetch_status_classification (r : HttpResp) (fuel : Nat) :
    (r.status ≠ 200 → r.status ≠ 429 →
      (fetch_json_run (fun _ => r) (fuel + 1) 0).2 =
        some (.upstreamError r.status r.body)) ∧
    (r.status ≠ 200 → r.status ≠ 201 → r.status ≠ 429 →
      (post_json_run (fun _ => r) (fuel + 1) 0).2 =
        some (.upstreamError r.status r.body)) ∧
    (r.status = 201 → (post_json_run (fun _ => r) (fuel + 1) 0).2 = some (.ok r.body)) ∧
    (r.status = 201 →
      (fetch_json_run (fun _ => r) (fuel + 1) 0).2 =
        some (.upstreamError r.status r.body)) := by
  refine ⟨?_, ?_, ?_, ?_⟩
  · intro h200 h429
    rw [fetch_json_run, if_neg h429, if_neg h200]
  · intro h200 h201 h429
    rw [post_json_run, if_neg h429, if_neg (by simp [h200, h201])]
  · intro h201
    rw [post_json_run, if_neg (by rw [h201]; decide), if_pos (by simp [h201])]
  · intro h201
    rw [fetch_json_run, if_neg (by rw [h201]; decide), if_neg (by rw [h201]; decide)]

/-- C9 (counterexample): a GET whose upstream answers 201 raises the upstream
error rather than succeeding, while the same response makes a POST succeed —
contradicting the claim that 201 is treated as success by both operations and
never raises. -/
theorem get_201_raises_cex :
    (fetch_json_run (fun _ => ⟨201, none, ("created").toList⟩) 1 0).2 =
      some (.upstreamError 201 (("created").toList)) ∧
    (post_json_run (fun _ => ⟨201, none, ("created").toList⟩) 1 0).2 =
      some (.ok (("created").toList)) := by
  decide

/-- C9 witness: the amended classification applied at a 404 and a 201
response. -/
theorem fetch_status_classification_witness :
    (fetch_json_run (fun _ => (⟨404, none, ("nope").toList⟩ : HttpResp)) 1 0).2 =
      some (.upstreamError 404 (("nope").toList)) ∧
    (post_json_run (fun _ => (⟨404, none, ("nope").toList⟩ : HttpResp)) 1 0).2 =
      some (.upstreamError 404 (("nope").toList)) ∧
    (post_json_run (fun _ => (⟨201, none, ("made").toList⟩ : HttpResp)) 1 0).2 =
      some (.ok (("made").toList)) :=
  ⟨(fetch_status_classification ⟨404, none, ("nope").toList⟩ 0).1 (by decide) (by decide),
    ((fetch_status_classification ⟨404, none, ("nope").toList⟩ 0).2.1 (by decide) (by decide)
      (by decide)),
    ((fetch_status_classification ⟨201, none, ("made").toList⟩ 0).2.2.1 rfl)⟩

/-! ## Lemmas: result matching -/

/-- The filename test only accepts audio-extensioned files. -/
theorem isAudioName_of_fname_matches {track : Track} {f : List Char}
    (h : fname_matches track f = true) : isAudioName f = true := by
  simp only [fname_matches, Bool.and_eq_true] at h
  exact h.1

/-- C8 (amended): the matcher actually used by the downloader applies two
strategies, not three: it returns a file from the listing with an audio
extension; when some audio file passes the filename test (name contains the
first 20 characters of the lowercased SafeName, or contains the raw id) such
a file is returned; otherwise any audio file present is returned (last
resort); and the fetch is reported as the `File not found after download`
failure exactly when the directory holds no audio-extensioned file at all.
Embedded metadata is never consulted on this path. -/
theorem find_downloaded_file_spec (files : List (List Char)) (track : Track) :
    (∀ f, _find_downloaded_file files track = some f → f ∈ files ∧ isAudioName f = true) ∧
    ((∃ f, f ∈ files ∧ fname_matches track f = true) →
      ∃ f, _find_downloaded_file files track = some f ∧ fname_matches track f = true) ∧
    ((∃ f, f ∈ files ∧ isAudioName f = true) →
      ∃ f, _find_downloaded_file files track = some f) ∧
    ((download_track_find_result files track).success = false ↔
      ∀ f ∈ files, isAudioName f = false) ∧
    ((download_track_find_result files track).success = false →
      (download_track_find_result files track).error =
        some (("File not found after download").toList)) := by
  have hnone_iff : _find_downloaded_file files track = none ↔
      ∀ f ∈ files, isAudioName f = false := by
    constructor
    · intro h f hf
      rw [_find_downloaded_file] at h
      split at h
      · cases h
      · rw [List.find?_eq_none] at h
        have := h f hf
        simpa using this
    · intro hall
      have h2 : files.find? (fun f => isAudioName f) = none := by
        rw [List.find?_eq_none]
        intro f hf
        simp [hall f hf]
      have h1 : files.find? (fun f => fname_matches track f) = none := by
        rw [List.find?_eq_none]
        intro f hf hm
        have := isAudioName_of_fname_matches hm
        rw [hall f hf] at this
        cases this
      rw [_find_downloaded_file, h1, h2]
  refine ⟨?_, ?_, ?_, ?_, ?_⟩
  · intro f h
    rw [_find_downloaded_file] at h
    split at h
    · rename_i g heq
      cases h
      exact ⟨List.mem_of_find?_eq_some heq,
        isAudioName_of_fname_matches (List.find?_some heq)⟩
    · exact ⟨List.mem_of_find?_eq_some h, by simpa using List.find?_some h⟩
  · rintro ⟨f, hf, hm⟩
    have hsome : (files.find? (fun f => fname_matches track f)).isSome :=
      List.find?_isSome.mpr ⟨f, hf, hm⟩
    obtain ⟨g, hg⟩ := Option.isSome_iff_exists.mp hsome
    refine ⟨g, ?_, List.find?_some hg⟩
    rw [_find_downloaded_file, hg]
  · rintro ⟨f, hf, ha⟩
    cases hfind : files.find? (fun f => fname_matches track f) with
    | some g =>
      refine ⟨g, ?_⟩
      rw [_find_downloaded_file, hfind]
    | none =>
      have hsome : (files.find? (fun f => isAudioName f)).isSome :=
        List.find?_isSome.mpr ⟨f, hf, by simpa using ha⟩
      obtain ⟨g, hg⟩ := Option.isSome_iff_exists.mp hsome
      refine ⟨g, ?_⟩
      rw [_find_downloaded_file, hfind, hg]
  · rw [← hnone_iff, download_track_find_result]
    split
    · rename_i p heq
      simp [heq]
    · rename_i heq
      simp [heq]
  · intro hf
    rw [download_track_find_result]
    split
    · rename_i p heq
      rw [download_track_find_result] at hf
      rw [heq] at hf
      simp at hf
    · rfl

/-- C8 (counterexample): a directory whose first audio file has no readable
tags and whose second audio file's embedded title tag matches the item: the
claimed three-stage matcher (metadata first) picks the second file, but the
matcher the downloader actually runs, `_find_downloaded_file`, never reads
tags and returns the first audio file via its last-resort pass.  The live
matcher therefore does not apply the claimed metadata-first priority order. -/
theorem matcher_priority_cex :
    claimed_matcher scdlFiles trackMeta = some (("take.mp3").toList) ∧
    _find_downloaded_file (scdlFiles.map (fun f => f.name)) trackMeta =
      some (("mix.mp3").toList) ∧
    ¬(("take.mp3").toList = ("mix.mp3").toList) := by
  decide

/-- C8 witness: the amended theorem applied to a concrete directory where the
filename strategy fires, and to one where only the last resort applies. -/
theorem find_downloaded_file_spec_witness :
    ((∃ f, f ∈ [("Artist - Song A.mp3").toList, ("zz.mp3").toList] ∧
        fname_matches trackA f = true) ∧
      (∃ f, _find_downloaded_file
          [("Artist - Song A.mp3").toList, ("zz.mp3").toList] trackA = some f ∧
        fname_matches trackA f = true)) ∧
    ((download_track_find_result [("readme.txt").toList] trackA).success = false ∧
      (download_track_find_result [("readme.txt").toList] trackA).error =
        some (("File not found after download").toList)) :=
  ⟨⟨⟨("Artist - Song A.mp3").toList, by decide⟩,
    (find_downloaded_file_spec [("Artist - Song A.mp3").toList, ("zz.mp3").toList]
        trackA).2.1 ⟨("Artist - Song A.mp3").toList, by decide⟩⟩,
    by decide,
    (find_downloaded_file_spec [("readme.txt").toList] trackA).2.2.2.2 (by decide)⟩

/-- The entry loop fails with a `ValidationError` exactly when some entry is
rejected (not an object, or missing/falsy `id`). -/
theorem validate_entries_vErr_iff :
    ∀ (xs : List Json) (i : Nat) (u : Option Json),
      (∃ msg, validate_entries i u xs = .vErr msg) ↔ ∃ t ∈ xs, entry_rejected t = true
  | [], i, u => by
    simp [validate_entries]
  | t :: rest, i, u => by
    cases t with
    | obj fs =>
      simp only [validate_entries]
      by_cases hid : (entry_id_raw (Json.obj fs)).truthy
      · rw [if_neg (by simp [hid])]
        constructor
        · rintro ⟨msg, hmsg⟩
          split at hmsg
          · cases hmsg
          · obtain ⟨t', ht', hrej⟩ :=
              (validate_entries_vErr_iff rest (i + 1) _).mp ⟨msg, hmsg⟩
            exact ⟨t', List.mem_cons_of_mem _ ht', hrej⟩
        · rintro ⟨t', ht', hrej⟩
          rcases List.mem_cons.mp ht' with rfl | ht''
          · rw [show entry_rejected (Json.obj fs) = !(entry_id_raw (Json.obj fs)).truthy
              from rfl] at hrej
            rw [hid] at hrej
            cases hrej
          · obtain ⟨msg, hmsg⟩ :=
              (validate_entries_vErr_iff rest (i + 1) _).mpr ⟨t', ht'', hrej⟩
            refine ⟨msg, ?_⟩
            rw [hmsg]
      · have hid0 : (entry_id_raw (Json.obj fs)).truthy = false := by
          simpa using hid
        rw [if_pos (by simp [hid0])]
        constructor
        · intro _
          refine ⟨Json.obj fs, List.mem_cons_self _ _, ?_⟩
          rw [show entry_rejected (Json.obj fs) = !(entry_id_raw (Json.obj fs)).truthy
            from rfl, hid0]
          rfl
        · intro _
          exact ⟨_, rfl⟩
    | null =>
      simp only [validate_entries]
      exact ⟨fun _ => ⟨Json.null, List.mem_cons_self _ _, rfl⟩, fun _ => ⟨_, rfl⟩⟩
    | bool b =>
      simp only [validate_entries]
      exact ⟨fun _ => ⟨Json.bool b, List.mem_cons_self _ _, rfl⟩, fun _ => ⟨_, rfl⟩⟩
    | num n =>
      simp only [validate_entries]
      exact ⟨fun _ => ⟨Json.num n, List.mem_cons_self _ _, rfl⟩, fun _ => ⟨_, rfl⟩⟩
    | str s =>
      simp only [validate_entries]
      exact ⟨fun _ => ⟨Json.str s, List.mem_cons_self _ _, rfl⟩, fun _ => ⟨_, rfl⟩⟩
    | arr elems =>
      simp only [validate_entries]
      exact ⟨fun _ => ⟨Json.arr elems, List.mem_cons_self _ _, rfl⟩, fun _ => ⟨_, rfl⟩⟩

/-- When no entry is rejected, the loop accepts the whole batch and produces
exactly the per-entry tracks, index-aligned. -/
theorem validate_entries_ok_of_all_good :
    ∀ (xs : List Json) (i : Nat) (u : Option Json),
      (∀ t ∈ xs, entry_rejected t = false) →
      ∃ un, validate_entries i u xs = .ok (enumMapFrom entry_track i xs) un
  | [], _, _, _ => ⟨_, rfl⟩
  | t :: rest, i, u, hall => by
    have hhead := hall t (List.mem_cons_self _ _)
    cases t with
    | obj fs =>
      have hid : (entry_id_raw (Json.obj fs)).truthy = true := by
        rw [show entry_rejected (Json.obj fs) = !(entry_id_raw (Json.obj fs)).truthy
          from rfl] at hhead
        simpa using hhead
      simp only [validate_entries]
      rw [if_neg (by simp [hid])]
      obtain ⟨un, hrec⟩ := validate_entries_ok_of_all_good rest (i + 1) _
        (fun t' ht' => hall t' (List.mem_cons_of_mem _ ht'))
      refine ⟨un, ?_⟩
      rw [hrec]
      rfl
    | null => simp [entry_rejected] at hhead
    | bool b => simp [entry_rejected] at hhead
    | num n => simp [entry_rejected] at hhead
    | str s => simp [entry_rejected] at hhead
    | arr elems => simp [entry_rejected] at hhead

/-- C10 (amended): for a request whose `tracks` value is an array, validation
raises a `ValidationError` exactly when the body object is empty, the array
is empty, the array has more than 5 entries, or some entry is rejected (not
an object, or its `id` missing or falsy — an empty-string id is rejected even
though the field is present); when none of that holds, the request is
accepted and yields one track per entry, index-aligned, with the per-entry
url/permalink_url/synthesized-url, title and artist/user.username defaults of
`entry_track`.  A missing `url`, `title` or `artist` never causes
rejection. -/
theorem validate_request_spec (kvs : List (List Char × Json)) (xs : List Json)
    (ht : ((Json.obj kvs).get (("tracks").toList)).getD (.arr []) = .arr xs) :
    ((∃ msg, validate_request (Json.obj kvs) = .vErr msg) ↔
      (kvs = [] ∨ xs = [] ∨ 5 < xs.length ∨ ∃ t ∈ xs, entry_rejected t = true)) ∧
    ((kvs ≠ [] ∧ xs ≠ [] ∧ xs.length ≤ 5 ∧ ∀ t ∈ xs, entry_rejected t = false) →
      ∃ un, validate_request (Json.obj kvs) = .ok (enumMap entry_track xs) un) := by
  cases kvs with
  | nil =>
    constructor
    · exact ⟨fun _ => .inl rfl, fun _ => ⟨_, rfl⟩⟩
    · rintro ⟨hk, -, -, -⟩
      exact absurd rfl hk
  | cons p ps =>
    have hbody : (Json.obj (p :: ps)).truthy = true := rfl
    cases xs with
    | nil =>
      have hred : validate_request (Json.obj (p :: ps)) =
          .vErr (("At least one track is required").toList) := by
        simp only [validate_request]
        rw [if_neg (by simp [hbody]), ht]
        rfl
      constructor
      · exact ⟨fun _ => .inr (.inl rfl), fun _ => ⟨_, hred⟩⟩
      · rintro ⟨-, hx, -, -⟩
        exact absurd rfl hx
    | cons t ts =>
      have htr : (Json.arr (t :: ts)).truthy = true := rfl
      have hred0 : validate_request (Json.obj (p :: ps)) =
          (if (t :: ts : List Json).length > 5 then
            VOut.vErr (("Maximum 5 tracks per request").toList)
          else validate_entries 0 none (t :: ts)) := by
        simp only [validate_request]
        rw [if_neg (by simp [hbody]), ht, if_neg (by simp [htr])]
      by_cases hlen : 5 < (t :: ts : List Json).length
      · have hred : validate_request (Json.obj (p :: ps)) =
            .vErr (("Maximum 5 tracks per request").toList) := by
          rw [hred0, if_pos hlen]
        constructor
        · exact ⟨fun _ => .inr (.inr (.inl hlen)), fun _ => ⟨_, hred⟩⟩
        · rintro ⟨-, -, hle, -⟩
          omega
      · have hred : validate_request (Json.obj (p :: ps)) =
            validate_entries 0 none (t :: ts) := by
          rw [hred0, if_neg hlen]
        rw [hred]
        constructor
        · rw [validate_entries_vErr_iff (t :: ts) 0 none]
          constructor
          · intro h
            exact .inr (.inr (.inr h))
          · rintro (h | h | h | h)
            · simp at h
            · simp at h
            · omega
            · exact h
        · rintro ⟨-, -, -, hall⟩
          obtain ⟨un, h⟩ := validate_entries_ok_of_all_good (t :: ts) 0 none hall
          exact ⟨un, by rw [enumMap]; exact h⟩

/-- C10 (counterexample): an entry with no `url` but a `permalink_url` is
accepted with that permalink as its url — not with the synthesized
`https://api.soundcloud.com/tracks/<id>` url the claim prescribes for every
entry whose `url` is missing. -/
theorem validate_permalink_cex :
    validate_request bodyPermalink =
      .ok [⟨("1").toList, ("X").toList, ("Track 1").toList,
        ("Unknown Artist").toList⟩] (("xomcloud").toList) ∧
    ¬(("X").toList = ("https://api.soundcloud.com/tracks/1").toList) := by
  decide

/-- C10 witness: the amended characterization applied to a concrete
well-formed two-entry request, with its hypotheses discharged there, and the
resulting tracks showing the url/title/artist defaults. -/
theorem validate_request_spec_witness :
    (∃ un, validate_request bodyTwoTracks =
      .ok (enumMap entry_track
        [.obj [((("id").toList), .str (("1").toList)),
          ((("url").toList), .str (("https://a/b").toList)),
          ((("user").toList), .obj [((("username").toList), .str (("Bob").toList))])],
         .obj [((("id").toList), .str (("2").toList))]]) un) ∧
    validate_request bodyTwoTracks =
      .ok [⟨("1").toList, ("https://a/b").toList, ("Track 1").toList, ("Bob").toList⟩,
        ⟨("2").toList, ("https://api.soundcloud.com/tracks/2").toList,
          ("Track 2").toList, ("Unknown Artist").toList⟩] (("Bob").toList) :=
  ⟨(validate_request_spec
      [((("tracks").toList), .arr
        [.obj [((("id").toList), .str (("1").toList)),
          ((("url").toList), .str (("https://a/b").toList)),
          ((("user").toList), .obj [((("username").toList), .str (("Bob").toList))])],
         .obj [((("id").toList), .str (("2").toList))]])]
      [.obj [((("id").toList), .str (("1").toList)),
        ((("url").toList), .str (("https://a/b").toList)),
        ((("user").toList), .obj [((("username").toList), .str (("Bob").toList))])],
       .obj [((("id").toList), .str (("2").toList))]]
      rfl).2
      ⟨by simp, by simp, by simp, by decide⟩,
    by decide⟩
